import Mathlib

/-!
# Verification of the finance dashboard core

Shallow embedding of the data-normalization / obfuscation engine, the
access-tier gating, and the frontend filter/sort pipeline of the personal
finance dashboard, together with proofs of the spec's testable properties.

Monetary amounts are modelled as rationals; machine floating point is
abstracted to exact rational arithmetic except where the non-finite
JavaScript values (Infinity / NaN) are themselves the object of study,
where an explicit `JsNum` type models them.

The backend (Python) source is not part of the repository snapshot under
verification; the obfuscation engine, aggregator and access gate are
modelled from the specification text (each such definition carries a
doc comment starting with "Modelled from the spec:").  The frontend
components (`ExpenseList`, `Dashboard`, `AIInsights`) are embedded from
their JSX source.
-/

/-! ## Obfuscation engine (modelled from the spec) -/

/-- Modelled from the spec: one step of a 32-bit linear congruential
pseudo-random generator (the backend obfuscation engine is absent from the
source snapshot; the spec only requires a deterministic date-seeded
generator: "any deterministic date→[0.2,0.4) mapping satisfying
properties 1-2 is acceptable"). -/
def lcgNext (x : Nat) : Nat :=
  (1664525 * x + 1013904223) % 4294967296

/-- Modelled from the spec: hash of the UTC calendar-date string used to
seed the pseudo-random generator ("derived from the current UTC date as a
seed (e.g. hash the date string)"). -/
def hashDate (s : String) : Nat :=
  s.data.foldl (fun h c => (h * 31 + c.toNat) % 4294967296) 5381

/-- Modelled from the spec: `dailyFactor()` — the date string is hashed
into a seed, the generator is advanced once, and the resulting 32-bit
value is mapped uniformly onto the half-open interval [0.2, 0.4). -/
def dailyFactor (d : String) : ℚ :=
  1/5 + ((lcgNext (hashDate d) : ℚ) / 4294967296) * (1/5)

/-- Modelled from the spec: an invocation of `dailyFactor()` in a process
whose ambient pseudo-random state is `priorState`.  The factor is
"recomputed on demand from today(), never stored": the generator is
re-seeded from the date on every call, so the ambient state is ignored. -/
def invokeDailyFactor (_priorState : Nat) (d : String) : ℚ :=
  dailyFactor d

/-- Modelled from the spec: `obfuscateAmount(amount) -> amount * dailyFactor()`,
the single per-request scaling applied to every monetary quantity served
to a Guest-tier caller on date `d`. -/
def obfuscateAmount (d : String) (amount : ℚ) : ℚ :=
  amount * dailyFactor d

/-! ## Access gate (modelled from the spec) -/

/-- Binary trust classification of a request. -/
inductive TrustLevel where
  | Trusted
  | Guest
  deriving DecidableEq

/-- Modelled from the spec: `resolveTrust(credential) -> TrustLevel`.
`Trusted` iff the credential is non-null, non-empty and present in the
allow-list with an expiry strictly in the future; every other input (null,
empty string, unrecognized value, expired token) collapses to `Guest`.
The allow-list is the injected read-only token store: a list of
(token, expiry) pairs; `now` is the request time. The function is total,
embedding the fail-open contract (no input raises). -/
def resolveTrust (cred : Option String) (allowList : List (String × Nat)) (now : Nat) : TrustLevel :=
  match cred with
  | none => TrustLevel.Guest
  | some c =>
      if c = "" then TrustLevel.Guest
      else if allowList.any (fun p => p.1 == c && decide (now < p.2)) then TrustLevel.Trusted
      else TrustLevel.Guest

/-- Modelled from the spec: `requireTrusted(trust) -> allow | deny`, the hard
gate used only for the AI-insight query; `true` means allow. -/
def requireTrusted : TrustLevel → Bool
  | TrustLevel.Trusted => true
  | TrustLevel.Guest => false

/-- Modelled from the spec: number of calls made to the external LLM
collaborator when serving one insights request at trust level `t`
(the test double of end-to-end scenario D counts invocations): the
backend invokes the LLM once iff `requireTrusted` allows the request,
independent of the query text. -/
def llmInvocations (t : TrustLevel) (_query : Option String) : Nat :=
  if requireTrusted t then 1 else 0

/-! ## Client-side insights gate (embedded from AIInsights.jsx) -/

/-- Outward-visible effects of the `getInsights` handler in
`AIInsights.jsx`: either the login prompt is opened, or a POST to
`/api/insights` carrying the (optional) query is issued. -/
inductive ClientEffect where
  | loginPrompt
  | postInsights (query : Option String)
  deriving DecidableEq

/-- Embedded from `AIInsights.jsx` (`getInsights`): when the caller is not
authenticated the handler opens the login prompt and returns without any
network request; otherwise it POSTs the query (or `undefined`, modelled as
`none`) to the insights endpoint. -/
def getInsights (isAuthenticated : Bool) (query : Option String) : List ClientEffect :=
  if isAuthenticated then [ClientEffect.postInsights query]
  else [ClientEffect.loginPrompt]

/-! ## Generic stable sort

JavaScript `Array.prototype.sort` is required to be stable (ES2019);
it is embedded as a stable insertion sort parameterized by the numeric
comparator, which places each element before the first element of the
already-sorted suffix that does not strictly precede it — exactly the
unique stable order determined by a consistent comparator. -/

/-- Insert `x` into `l`, skipping elements that must come before `x`
(comparator strictly positive) and stopping at the first element that
ties or must come after, so that earlier-input elements precede
equal-comparing later ones. -/
def insertCmp {α : Type} (cmp : α → α → ℚ) (x : α) : List α → List α
  | [] => [x]
  | h :: t => if 0 < cmp x h then h :: insertCmp cmp x t else x :: h :: t

/-- Stable sort by a JavaScript-style numeric comparator. -/
def sortByCmp {α : Type} (cmp : α → α → ℚ) : List α → List α
  | [] => []
  | x :: xs => insertCmp cmp x (sortByCmp cmp xs)

/-! ## Aggregator (modelled from the spec) -/

/-- Calendar date (year, month 1-12, day 1-31). -/
structure CalDate where
  year : Nat
  month : Nat
  day : Nat
  deriving DecidableEq

/-- Monotone integer encoding of a calendar date, order-isomorphic (on
calendar-valid dates) to the JavaScript millisecond timestamp that
`new Date(...)` comparisons and `Math.max` operate on. -/
def encDate (d : CalDate) : Nat :=
  (d.year * 13 + d.month) * 32 + d.day

/-- One parsed transaction row of the immutable dataset (spec §3):
exactly one of `expenseAmount` / `incomeAmount` is meant to be non-zero,
and `convertedAmount` is the amount in the single reporting currency. -/
structure Transaction where
  date : CalDate
  category : Option String
  tags : List String
  description : Option String
  expenseAmount : ℚ
  incomeAmount : ℚ
  convertedAmount : ℚ

/-- The derived rollup served to the dashboard (spec §3); only the fields
exercised by the claims under verification are modelled. -/
structure AggregateSummary where
  totalExpenses : ℚ
  totalIncome : ℚ
  net : ℚ
  categoryBreakdown : List (String × ℚ)

/-- Add `v` to the entry of key `k` in an association list, appending a new
entry when the key is absent (first-seen order is preserved). -/
def addToAssoc : List (String × ℚ) → String → ℚ → List (String × ℚ)
  | [], k, v => [(k, v)]
  | (k1, v1) :: rest, k, v =>
      if k1 = k then (k1, v1 + v) :: rest
      else (k1, v1) :: addToAssoc rest k v

/-- Descending-by-value comparator for breakdown entries (stable tie-break
by first-seen order, per the spec's ordering contract). -/
def cmpByValueDesc (a b : String × ℚ) : ℚ :=
  b.2 - a.2

/-- Modelled from the spec: `summarize(transactions) -> AggregateSummary`.
Rows are partitioned into expense rows (`expenseAmount > 0`) and income
rows (`incomeAmount > 0`); each side sums `convertedAmount`; `net` is
computed by summation then one subtraction; the category breakdown groups
expense rows by category (null categories excluded from the mapping but
still counted in the total), drops non-positive sums, and is ordered by
descending value with stable first-seen tie-break. -/
def summarize (txs : List Transaction) : AggregateSummary :=
  let expenseRows := txs.filter (fun t => 0 < t.expenseAmount)
  let incomeRows := txs.filter (fun t => 0 < t.incomeAmount)
  let tE := (expenseRows.map (fun t => t.convertedAmount)).sum
  let tI := (incomeRows.map (fun t => t.convertedAmount)).sum
  let grouped := expenseRows.foldl
    (fun acc t =>
      match t.category with
      | some c => addToAssoc acc c t.convertedAmount
      | none => acc) []
  { totalExpenses := tE
    totalIncome := tI
    net := tI - tE
    categoryBreakdown := sortByCmp cmpByValueDesc (grouped.filter (fun p => 0 < p.2)) }

/-- Modelled from the spec: the Guest-tier transform of a summary — every
monetary field is scaled by the one daily factor of date `d` (drawn once
and reused for every value in the response, including `net`). -/
def obfuscateSummary (d : String) (s : AggregateSummary) : AggregateSummary :=
  { totalExpenses := obfuscateAmount d s.totalExpenses
    totalIncome := obfuscateAmount d s.totalIncome
    net := obfuscateAmount d s.net
    categoryBreakdown := s.categoryBreakdown.map (fun p => (p.1, obfuscateAmount d p.2)) }

/-! ## Dashboard net-percentage (embedded from Dashboard.jsx)

`Dashboard.jsx` renders the net-balance badge as
`((Math.abs(summary.net) / summary.total_expenses) * 100).toFixed(1)`.
JavaScript division is total: `x / 0` is `Infinity`, `-Infinity` or `NaN`,
never a fault. `JsNum` models the JavaScript number line including the
non-finite values. -/

/-- A JavaScript number: finite (exact rational abstraction), one of the
two infinities, or `NaN`. -/
inductive JsNum where
  | num (q : ℚ)
  | posInf
  | negInf
  | nan
  deriving DecidableEq

/-- JavaScript division on (finite) numbers: total, with the IEEE-754
non-finite results on a zero divisor. -/
def jsDiv (a b : ℚ) : JsNum :=
  if b = 0 then
    if 0 < a then JsNum.posInf
    else if a < 0 then JsNum.negInf
    else JsNum.nan
  else JsNum.num (a / b)

/-- JavaScript multiplication of a possibly non-finite value by a finite
constant. -/
def jsMulC (x : JsNum) (c : ℚ) : JsNum :=
  match x with
  | JsNum.num q => JsNum.num (q * c)
  | JsNum.posInf => if 0 < c then JsNum.posInf else if c < 0 then JsNum.negInf else JsNum.nan
  | JsNum.negInf => if 0 < c then JsNum.negInf else if c < 0 then JsNum.posInf else JsNum.nan
  | JsNum.nan => JsNum.nan

/-- Embedded from `Dashboard.jsx` line 132: the percentage shown on the
net-balance badge, `(Math.abs(summary.net) / summary.total_expenses) * 100`,
with no guard on a zero `total_expenses`. -/
def dashboardNetPercent (s : AggregateSummary) : JsNum :=
  jsMulC (jsDiv |s.net| s.totalExpenses) 100

/-! ## Frontend expense/income list pipeline (embedded from ExpenseList.jsx) -/

/-- One row of the JSON payload as the `ExpenseList` component sees it
(fields `Date`, `Category`, `Tags`, `Description`, `Expense amount`,
`Income amount`, `In main currency`). `Tags` is the raw comma-joined
string of the CSV export; nullable text fields are `Option`s (the JS
truthiness guard also rejects the empty string, which is modelled
explicitly at the use sites). -/
structure Row where
  date : CalDate
  category : Option String
  tags : Option String
  description : Option String
  expenseAmount : ℚ
  incomeAmount : ℚ
  inMainCurrency : Option ℚ
  deriving DecidableEq

/-- The four sort orders offered by the list view. -/
inductive SortOrder where
  | dateDesc
  | dateAsc
  | amountDesc
  | amountAsc
  deriving DecidableEq

/-- The four date-range settings; `threeMonths` is the default. -/
inductive DateRange where
  | threeMonths
  | sixMonths
  | oneYear
  | allTime
  deriving DecidableEq

/-- Embedded from `ExpenseList.jsx`: months subtracted for each bounded
date range (the variable defaults to 3 and is unused for `allTime`). -/
def monthsToSubtract : DateRange → Nat
  | DateRange.threeMonths => 3
  | DateRange.sixMonths => 6
  | DateRange.oneYear => 12
  | DateRange.allTime => 3

/-- Leap-year test (Gregorian). -/
def isLeapYear (y : Nat) : Bool :=
  (y % 4 == 0 && y % 100 != 0) || y % 400 == 0

/-- Number of days in a month. -/
def daysInMonth (y m : Nat) : Nat :=
  if m = 2 then (if isLeapYear y then 29 else 28)
  else if m = 4 ∨ m = 6 ∨ m = 9 ∨ m = 11 then 30
  else 31

/-- Embedded from date-fns `subMonths`: shift the month index back by `n`
and clamp the day-of-month to the length of the target month. -/
def subMonths (d : CalDate) (n : Nat) : CalDate :=
  let t := d.year * 12 + (d.month - 1) - n
  let y := t / 12
  let m := t % 12 + 1
  { year := y, month := m, day := min d.day (daysInMonth y m) }

/-- Embedded from `ExpenseList.jsx` (`mostRecentDate`): the maximum
transaction date of the full input list, or the current date (`today`)
when the list is empty. -/
def mostRecentDate (today : CalDate) : List Row → CalDate
  | [] => today
  | r :: rs => rs.foldl (fun acc x => if encDate acc < encDate x.date then x.date else acc) r.date

/-- Lowercase a character list (ASCII case mapping, which is what
`String.prototype.toLowerCase` performs on the ASCII data at hand). -/
def lowerChars (l : List Char) : List Char :=
  l.map Char.toLower

/-- Whether `needle` occurs at the head of `hay`. -/
def listLead : List Char → List Char → Bool
  | [], _ => true
  | _ :: _, [] => false
  | a :: as, b :: bs => a == b && listLead as bs

/-- Whether `needle` occurs as a contiguous run anywhere in `hay`
(the semantics of `String.prototype.includes`). -/
def listHas (needle : List Char) : List Char → Bool
  | [] => needle.isEmpty
  | b :: bs => listLead needle (b :: bs) || listHas needle bs

/-- Embedded from the search guard of `ExpenseList.jsx`: a nullable text
field matches when it is present, truthy (non-empty) and its lowercased
text contains the already-lowercased search term. -/
def fieldTruthyMatch (term : List Char) : Option String → Bool
  | none => false
  | some s => if s = "" then false else listHas term (lowerChars s.data)

/-- Embedded from `ExpenseList.jsx`: a row passes the free-text search when
its category, its raw comma-joined tags string, or its description
matches the lowercased term. -/
def searchMatches (term : List Char) (r : Row) : Bool :=
  fieldTruthyMatch term r.category ||
  fieldTruthyMatch term r.tags ||
  fieldTruthyMatch term r.description

/-- Split a character list at commas (used only by the spec-side reading
of the search contract, mirroring how the UI itself splits the tags string
for display). -/
def splitCommaAux : List Char → List Char → List (List Char)
  | [], cur => [cur.reverse]
  | c :: cs, cur =>
      if c = ',' then cur.reverse :: splitCommaAux cs []
      else splitCommaAux cs (c :: cur)

/-- Split at commas. -/
def splitComma (l : List Char) : List (List Char) :=
  splitCommaAux l []

/-- Strip leading and trailing spaces. -/
def trimSpaces (l : List Char) : List Char :=
  ((l.dropWhile (fun c => c == ' ')).reverse.dropWhile (fun c => c == ' ')).reverse

/-- The search contract as the spec words it (a second definition kept for
comparison with the embedded `searchMatches`): the term matches
case-insensitively against the category, against AT LEAST ONE OF THE
INDIVIDUAL TAGS of the row, or against the description. -/
def specSearchIncludes (st : String) (r : Row) : Bool :=
  let term := lowerChars st.data
  fieldTruthyMatch term r.category ||
  (match r.tags with
   | none => false
   | some tg => (splitComma tg.data).any (fun t => listHas term (lowerChars (trimSpaces t)))) ||
  fieldTruthyMatch term r.description

/-- Embedded from `ExpenseList.jsx`: the expense/income partition filter
(`e['Expense amount'] > 0` resp. `e['Income amount'] > 0`). -/
def kindFiltered (isIncome : Bool) (rows : List Row) : List Row :=
  if isIncome then rows.filter (fun r => decide (0 < r.incomeAmount))
  else rows.filter (fun r => decide (0 < r.expenseAmount))

/-- Embedded from `ExpenseList.jsx`: unless the range is `all`, keep only
rows dated on or after `subMonths(mostRecentDate, monthsToSubtract)`,
where `mostRecentDate` is computed over the FULL input list `allRows`. -/
def dateFiltered (dr : DateRange) (today : CalDate) (allRows : List Row) (l : List Row) : List Row :=
  match dr with
  | DateRange.allTime => l
  | _ =>
      let cutoff := subMonths (mostRecentDate today allRows) (monthsToSubtract dr)
      l.filter (fun r => decide (encDate cutoff ≤ encDate r.date))

/-- Embedded from `ExpenseList.jsx`: exact-match category filter, active
when the selected category is truthy and not the `All` sentinel. -/
def categoryFiltered (fc : String) (l : List Row) : List Row :=
  if fc ≠ "" ∧ fc ≠ "All" then l.filter (fun r => decide (r.category = some fc))
  else l

/-- Embedded from `ExpenseList.jsx`: free-text search filter, active when
the term is truthy; the term is lowercased once. -/
def searchFiltered (st : String) (l : List Row) : List Row :=
  if st = "" then l
  else l.filter (searchMatches (lowerChars st.data))

/-- Amount key used by the amount sort orders:
`a['In main currency'] || 0`. -/
def rowAmountKey (r : Row) : ℚ :=
  r.inMainCurrency.getD 0

/-- Embedded from `ExpenseList.jsx`: the JavaScript comparator passed to
`Array.prototype.sort` for each sort order (date comparisons subtract
timestamps, amount comparisons subtract the `|| 0`-defaulted amounts). -/
def cmpRows (so : SortOrder) (a b : Row) : ℚ :=
  match so with
  | SortOrder.dateDesc => (encDate b.date : ℚ) - (encDate a.date : ℚ)
  | SortOrder.dateAsc => (encDate a.date : ℚ) - (encDate b.date : ℚ)
  | SortOrder.amountDesc => rowAmountKey b - rowAmountKey a
  | SortOrder.amountAsc => rowAmountKey a - rowAmountKey b

/-- The sort key a row is ordered by under each sort order (two rows tie
exactly when their keys coincide). -/
def sortKeyOf (so : SortOrder) (r : Row) : ℚ :=
  match so with
  | SortOrder.dateDesc => (encDate r.date : ℚ)
  | SortOrder.dateAsc => (encDate r.date : ℚ)
  | SortOrder.amountDesc => rowAmountKey r
  | SortOrder.amountAsc => rowAmountKey r

/-- Embedded from `ExpenseList.jsx` (`filteredExpenses`, filtering stages):
partition by kind, then date-range cutoff, then category, then free-text
search — everything before the final sort, in source order. -/
def preSortFiltered (isIncome : Bool) (dr : DateRange) (fc st : String)
    (today : CalDate) (rows : List Row) : List Row :=
  searchFiltered st
    (categoryFiltered fc
      (dateFiltered dr today rows
        (kindFiltered isIncome rows)))

/-- Embedded from `ExpenseList.jsx` (`filteredExpenses`): the filtered
list, stably sorted by the comparator of the selected sort order. -/
def filteredExpenses (isIncome : Bool) (dr : DateRange) (fc st : String)
    (so : SortOrder) (today : CalDate) (rows : List Row) : List Row :=
  sortByCmp (cmpRows so) (preSortFiltered isIncome dr fc st today rows)

/-! ## Concrete fixtures used by witnesses and counterexamples -/

/-- A transaction of end-to-end scenario A: one Food expense of 100. -/
def foodTx : Transaction :=
  { date := { year := 2024, month := 3, day := 15 }
    category := some ("Food")
    tags := []
    description := none
    expenseAmount := 100
    incomeAmount := 0
    convertedAmount := 100 }

/-- A row of end-to-end scenario B: `tags = "skiing,winter"`, amount 50. -/
def skiRow : Row :=
  { date := { year := 2024, month := 1, day := 10 }
    category := none
    tags := some ("skiing,winter")
    description := none
    expenseAmount := 50
    incomeAmount := 0
    inMainCurrency := some 50 }

/-- The unrelated row of end-to-end scenario B: no matching field, amount 20. -/
def plainRow : Row :=
  { date := { year := 2024, month := 1, day := 5 }
    category := some ("Food")
    tags := none
    description := none
    expenseAmount := 20
    incomeAmount := 0
    inMainCurrency := some 20 }

/-! ## Helper lemmas -/

theorem lcgNext_lt (x : Nat) : lcgNext x < 4294967296 :=
  Nat.mod_lt _ (by norm_num)

theorem dailyFactor_lower (d : String) : 1/5 ≤ dailyFactor d := by
  unfold dailyFactor
  have h0 : (0 : ℚ) ≤ (lcgNext (hashDate d) : ℚ) / 4294967296 := by positivity
  nlinarith

theorem dailyFactor_upper (d : String) : dailyFactor d < 2/5 := by
  unfold dailyFactor
  have h1 : (lcgNext (hashDate d) : ℚ) < 4294967296 := by
    exact_mod_cast lcgNext_lt (hashDate d)
  have h2 : (lcgNext (hashDate d) : ℚ) / 4294967296 < 1 := by
    rw [div_lt_one (by norm_num)]
    exact h1
  nlinarith

theorem dailyFactor_pos (d : String) : 0 < dailyFactor d :=
  lt_of_lt_of_le (by norm_num) (dailyFactor_lower d)

theorem dailyFactor_ne_of_seed_ne (d1 d2 : String)
    (h : lcgNext (hashDate d1) ≠ lcgNext (hashDate d2)) :
    dailyFactor d1 ≠ dailyFactor d2 := by
  unfold dailyFactor
  intro heq
  apply h
  have hq : (lcgNext (hashDate d1) : ℚ) = (lcgNext (hashDate d2) : ℚ) := by linarith
  exact_mod_cast hq

theorem mem_insertCmp {α : Type} (cmp : α → α → ℚ) (x b : α) (l : List α) :
    b ∈ insertCmp cmp x l ↔ b = x ∨ b ∈ l := by
  induction l with
  | nil => simp [insertCmp]
  | cons hd tl ih =>
      by_cases hc : 0 < cmp x hd
      · simp only [insertCmp, if_pos hc, List.mem_cons, ih]
        tauto
      · simp only [insertCmp, if_neg hc, List.mem_cons]

theorem mem_sortByCmp {α : Type} (cmp : α → α → ℚ) (b : α) (l : List α) :
    b ∈ sortByCmp cmp l ↔ b ∈ l := by
  induction l with
  | nil => simp [sortByCmp]
  | cons hd tl ih => simp [sortByCmp, mem_insertCmp, ih]

theorem filter_insertCmp_pos {α : Type} (cmp : α → α → ℚ) (p : α → Bool) (x : α) (l : List α)
    (hx : p x = true) (hall : ∀ b ∈ l, p b = true → cmp x b = 0) :
    (insertCmp cmp x l).filter p = x :: l.filter p := by
  induction l with
  | nil => simp [insertCmp, hx]
  | cons hd tl ih =>
      by_cases hc : 0 < cmp x hd
      · have hph : p hd = false := by
          rcases Bool.eq_false_or_eq_true (p hd) with h | h
          · have h0 := hall hd (List.mem_cons_self hd tl) h
            rw [h0] at hc
            exact absurd hc (lt_irrefl 0)
          · exact h
        rw [show insertCmp cmp x (hd :: tl) = hd :: insertCmp cmp x tl from by
          simp [insertCmp, hc]]
        rw [List.filter_cons, List.filter_cons, hph]
        simp only [Bool.false_eq_true, if_false]
        exact ih (fun b hb hpb => hall b (List.mem_cons_of_mem hd hb) hpb)
      · rw [show insertCmp cmp x (hd :: tl) = x :: hd :: tl from by simp [insertCmp, hc]]
        rw [List.filter_cons, hx]
        simp

theorem filter_insertCmp_neg {α : Type} (cmp : α → α → ℚ) (p : α → Bool) (x : α) (l : List α)
    (hx : p x = false) :
    (insertCmp cmp x l).filter p = l.filter p := by
  induction l with
  | nil => simp [insertCmp, hx]
  | cons hd tl ih =>
      by_cases hc : 0 < cmp x hd
      · rw [show insertCmp cmp x (hd :: tl) = hd :: insertCmp cmp x tl from by
          simp [insertCmp, hc]]
        rw [List.filter_cons, List.filter_cons, ih]
      · rw [show insertCmp cmp x (hd :: tl) = x :: hd :: tl from by simp [insertCmp, hc]]
        rw [List.filter_cons, hx]
        simp

theorem filter_sortByCmp {α : Type} (cmp : α → α → ℚ) (p : α → Bool) (l : List α)
    (hall : ∀ a ∈ l, ∀ b ∈ l, p a = true → p b = true → cmp a b = 0) :
    (sortByCmp cmp l).filter p = l.filter p := by
  induction l with
  | nil => rfl
  | cons hd tl ih =>
      have htl := ih (fun a ha b hb hpa hpb =>
        hall a (List.mem_cons_of_mem hd ha) b (List.mem_cons_of_mem hd hb) hpa hpb)
      rcases Bool.eq_false_or_eq_true (p hd) with hp | hp
      · rw [show sortByCmp cmp (hd :: tl) = insertCmp cmp hd (sortByCmp cmp tl) from rfl]
        rw [filter_insertCmp_pos cmp p hd (sortByCmp cmp tl) hp (fun b hb hpb =>
          hall hd (List.mem_cons_self hd tl) b
            (List.mem_cons_of_mem hd ((mem_sortByCmp cmp b tl).1 hb)) hp hpb)]
        rw [htl, List.filter_cons, hp]
        simp
      · rw [show sortByCmp cmp (hd :: tl) = insertCmp cmp hd (sortByCmp cmp tl) from rfl]
        rw [filter_insertCmp_neg cmp p hd (sortByCmp cmp tl) hp, htl, List.filter_cons, hp]
        simp

theorem mem_of_mem_searchFiltered (st : String) (l : List Row) (r : Row)
    (h : r ∈ searchFiltered st l) : r ∈ l := by
  unfold searchFiltered at h
  by_cases hst : st = ""
  · rw [if_pos hst] at h
    exact h
  · rw [if_neg hst] at h
    exact (List.mem_filter.1 h).1

theorem mem_of_mem_categoryFiltered (fc : String) (l : List Row) (r : Row)
    (h : r ∈ categoryFiltered fc l) : r ∈ l := by
  unfold categoryFiltered at h
  by_cases hfc : fc ≠ "" ∧ fc ≠ "All"
  · rw [if_pos hfc] at h
    exact (List.mem_filter.1 h).1
  · rw [if_neg hfc] at h
    exact h

theorem mem_dateFiltered_threeMonths (today : CalDate) (allRows l : List Row) (r : Row)
    (h : r ∈ dateFiltered DateRange.threeMonths today allRows l) :
    encDate (subMonths (mostRecentDate today allRows) 3) ≤ encDate r.date := by
  unfold dateFiltered at h
  exact of_decide_eq_true (List.mem_filter.1 h).2

theorem fieldTruthyMatch_iff (term : List Char) (f : Option String) :
    fieldTruthyMatch term f = true ↔
      ∃ s, f = some s ∧ s ≠ "" ∧ listHas term (lowerChars s.data) = true := by
  cases f with
  | none => simp [fieldTruthyMatch]
  | some s =>
      by_cases hs : s = "" <;> simp [fieldTruthyMatch, hs]

/-! ## Claim theorems -/

/-- C1. For every calendar date, the obfuscation factor returned by
`dailyFactor()` lies in the half-open interval [0.2, 0.4) (written here
with the exact rationals 1/5 and 2/5). -/
theorem dailyFactor_mem_range (d : String) :
    1/5 ≤ dailyFactor d ∧ dailyFactor d < 2/5 :=
  ⟨dailyFactor_lower d, dailyFactor_upper d⟩

/-- C2. For a fixed calendar date, every invocation of `dailyFactor()`
returns the same value — the generator is re-seeded from the date on each
call, so the result is independent of the ambient pseudo-random state the
process has accumulated; and invocations on two different dates return
different values (the probabilistic "overwhelming probability" clause is
witnessed here on a concrete pair of adjacent dates). -/
theorem dailyFactor_deterministic :
    (∀ (d : String) (s1 s2 : Nat), invokeDailyFactor s1 d = invokeDailyFactor s2 d) ∧
    dailyFactor ("2024-03-15") ≠ dailyFactor ("2024-03-16") := by
  constructor
  · intro d s1 s2
    rfl
  · exact dailyFactor_ne_of_seed_ne _ _ (by decide)

/-- C3. For every summary with a non-empty category breakdown and non-zero
total, obfuscating each category value and the total with the single
per-request factor preserves every ratio exactly (rational arithmetic, so
"within floating-point tolerance" holds a fortiori); moreover the
obfuscated summary reuses that one factor for every field. -/
theorem obfuscation_preserves_proportions (d : String) (s : AggregateSummary)
    (_hne : s.categoryBreakdown ≠ []) (h0 : s.totalExpenses ≠ 0) :
    (∀ p ∈ s.categoryBreakdown,
        obfuscateAmount d p.2 / obfuscateAmount d s.totalExpenses = p.2 / s.totalExpenses) ∧
    (obfuscateSummary d s).totalExpenses = obfuscateAmount d s.totalExpenses ∧
    (obfuscateSummary d s).totalIncome = obfuscateAmount d s.totalIncome ∧
    (obfuscateSummary d s).net = obfuscateAmount d s.net ∧
    (obfuscateSummary d s).categoryBreakdown =
      s.categoryBreakdown.map (fun p => (p.1, obfuscateAmount d p.2)) := by
  refine ⟨?_, rfl, rfl, rfl, rfl⟩
  intro p _
  unfold obfuscateAmount
  have hf : dailyFactor d ≠ 0 := ne_of_gt (dailyFactor_pos d)
  field_simp
  ring

/-- C3 witness: the proportion identity instantiated on the concrete
summary of scenario A (one Food expense of 100) on a concrete date. -/
theorem obfuscation_preserves_proportions_witness :
    obfuscateAmount ("2024-03-15") 100 /
        obfuscateAmount ("2024-03-15") (summarize [foodTx]).totalExpenses =
      100 / (summarize [foodTx]).totalExpenses := by
  have h := obfuscation_preserves_proportions ("2024-03-15") (summarize [foodTx])
    (by simp [summarize, foodTx, addToAssoc, sortByCmp, insertCmp])
    (by norm_num [summarize, foodTx])
  exact h.1 (("Food" : String), (100 : ℚ))
    (by simp [summarize, foodTx, addToAssoc, sortByCmp, insertCmp])

/-- C4. For every dataset (including the empty one) the summary satisfies
`net = totalIncome - totalExpenses` exactly, and the same identity holds
for the obfuscated summary served to guests. -/
theorem net_identity (txs : List Transaction) (d : String) :
    (summarize txs).net = (summarize txs).totalIncome - (summarize txs).totalExpenses ∧
    (obfuscateSummary d (summarize txs)).net =
      (obfuscateSummary d (summarize txs)).totalIncome -
        (obfuscateSummary d (summarize txs)).totalExpenses := by
  constructor
  · rfl
  · simp only [obfuscateSummary, obfuscateAmount, summarize]
    ring

/-- C5. `resolveTrust` is total (modelled: it always yields one of the two
trust levels, never an error) and fails open to `Guest` on every input
that is not a valid unexpired allow-listed token: null, empty string,
unrecognized value, or expired token — all covered by the hypothesis of
the final conjunct. -/
theorem resolveTrust_fail_open (allowList : List (String × Nat)) (now : Nat)
    (cred : Option String) :
    (resolveTrust cred allowList now = TrustLevel.Guest ∨
      resolveTrust cred allowList now = TrustLevel.Trusted) ∧
    resolveTrust none allowList now = TrustLevel.Guest ∧
    resolveTrust (some ("")) allowList now = TrustLevel.Guest ∧
    ((∀ p ∈ allowList, ¬(cred = some p.1 ∧ now < p.2)) →
      resolveTrust cred allowList now = TrustLevel.Guest) := by
  refine ⟨?_, rfl, by simp [resolveTrust], ?_⟩
  · cases h : resolveTrust cred allowList now
    · exact Or.inr rfl
    · exact Or.inl rfl
  · intro h
    cases cred with
    | none => rfl
    | some c =>
        by_cases hc : c = ""
        · simp [resolveTrust, hc]
        · have hany : (allowList.any fun p => p.1 == c && decide (now < p.2)) = false := by
            by_contra hb
            rw [Bool.not_eq_false, List.any_eq_true] at hb
            obtain ⟨p, hp, hcond⟩ := hb
            rw [Bool.and_eq_true, beq_iff_eq, decide_eq_true_eq] at hcond
            exact h p hp ⟨by rw [hcond.1], hcond.2⟩
          simp [resolveTrust, hc, hany]

/-- C5 witness: an expired token and a garbage token both resolve to
`Guest` on a concrete allow-list. -/
theorem resolveTrust_fail_open_witness :
    resolveTrust (some ("tok123")) [(("tok123" : String), 100)] 200 = TrustLevel.Guest ∧
    resolveTrust (some ("garbage")) [(("tok123" : String), 100)] 50 = TrustLevel.Guest := by
  constructor
  · exact (resolveTrust_fail_open [(("tok123" : String), 100)] 200
      (some ("tok123"))).2.2.2 (by decide)
  · exact (resolveTrust_fail_open [(("tok123" : String), 100)] 50
      (some ("garbage"))).2.2.2 (by decide)

/-- C6. A Guest-tier insights request is denied with no call to the
external LLM collaborator, and a Trusted-tier request is allowed,
regardless of query content: the client-side `getInsights` issues no POST
when unauthenticated, and the gate `requireTrusted` yields zero LLM
invocations for Guest and exactly one for Trusted. -/
theorem guest_insights_denied (q : Option String) :
    getInsights false q = [ClientEffect.loginPrompt] ∧
    ClientEffect.postInsights q ∉ getInsights false q ∧
    getInsights true q = [ClientEffect.postInsights q] ∧
    requireTrusted TrustLevel.Guest = false ∧
    llmInvocations TrustLevel.Guest q = 0 ∧
    requireTrusted TrustLevel.Trusted = true ∧
    llmInvocations TrustLevel.Trusted q = 1 := by
  refine ⟨rfl, ?_, rfl, rfl, rfl, rfl, rfl⟩
  simp [getInsights]

/-- C7. `filteredExpenses` sorts stably: for every input list, filter
settings and sort order, the rows whose sort key equals any fixed value
`k` appear in the output exactly in the order the (order-preserving)
filter stages delivered them — i.e. in their original relative input
order. -/
theorem filterAndSort_stable (isInc : Bool) (dr : DateRange) (fc st : String)
    (so : SortOrder) (today : CalDate) (rows : List Row) (k : ℚ) :
    (filteredExpenses isInc dr fc st so today rows).filter
        (fun r => decide (sortKeyOf so r = k)) =
      (preSortFiltered isInc dr fc st today rows).filter
        (fun r => decide (sortKeyOf so r = k)) := by
  unfold filteredExpenses
  apply filter_sortByCmp
  intro a _ b _ hpa hpb
  have ha : sortKeyOf so a = k := of_decide_eq_true hpa
  have hb : sortKeyOf so b = k := of_decide_eq_true hpb
  cases so <;>
    (simp only [cmpRows, sortKeyOf] at ha hb ⊢; rw [ha, hb, sub_self])

/-- C8 counterexample: the search term `"g,w"` matches no individual tag
of the row tagged `"skiing,winter"` (nor its category or description), yet
the embedded search includes the row, because the code matches against the
whole comma-joined tags string — refuting the claim's
"at least one of its individual tags" reading at this concrete input. -/
theorem search_tags_counterexample :
    skiRow ∈ searchFiltered ("g,w") [skiRow] ∧
    specSearchIncludes ("g,w") skiRow = false := by
  constructor
  · decide
  · decide

/-- C8 amended claim: for every transaction list and non-empty search
term, a row is included by the free-text search iff the lowercased term
occurs as a substring of the lowercased category, of the lowercased RAW
COMMA-JOINED TAGS STRING (not of each individual tag), or of the
lowercased description, absent/empty fields never matching. -/
theorem search_matches_characterization (st : String) (rows : List Row) (r : Row)
    (hst : st ≠ "") :
    r ∈ searchFiltered st rows ↔
      r ∈ rows ∧
      ((∃ c, r.category = some c ∧ c ≠ "" ∧
          listHas (lowerChars st.data) (lowerChars c.data) = true) ∨
       (∃ tg, r.tags = some tg ∧ tg ≠ "" ∧
          listHas (lowerChars st.data) (lowerChars tg.data) = true) ∨
       (∃ ds, r.description = some ds ∧ ds ≠ "" ∧
          listHas (lowerChars st.data) (lowerChars ds.data) = true)) := by
  unfold searchFiltered
  rw [if_neg hst, List.mem_filter]
  simp only [searchMatches, Bool.or_eq_true, fieldTruthyMatch_iff]
  rw [or_assoc]

/-- C8 witness: the characterization instantiated on scenario B — the
term `"ski"` includes the row tagged `"skiing,winter"`. -/
theorem search_matches_characterization_witness :
    skiRow ∈ searchFiltered ("ski") [skiRow, plainRow] := by
  exact (search_matches_characterization ("ski") [skiRow, plainRow] skiRow (by decide)).2
    ⟨by decide, Or.inr (Or.inl ⟨("skiing,winter" : String), rfl, by decide, by decide⟩)⟩

/-- C9 counterexample: on the empty dataset the summary has
`totalExpenses = 0`, and the Dashboard net-percentage computation yields
the unguarded non-finite value `NaN` — not an explicit zero/undefined-safe
result — refuting the claim that every percentage against a total is
guarded against a zero total. -/
theorem netPercent_unguarded_counterexample :
    dashboardNetPercent (summarize []) = JsNum.nan ∧
    (summarize []).totalExpenses = 0 := by
  constructor
  · simp [summarize, dashboardNetPercent, jsDiv, jsMulC]
  · rfl

/-- C9 amended claim: the Dashboard net-percentage is NOT guarded — when
`totalExpenses` is zero it evaluates to the non-finite JavaScript value
`NaN` (zero net) or `+Infinity` (non-zero net) rather than a guarded
zero; no runtime fault is raised (JavaScript division is total); with a
non-zero total the value is finite. -/
theorem netPercent_zero_total_behavior (s : AggregateSummary) :
    (s.totalExpenses = 0 → s.net = 0 → dashboardNetPercent s = JsNum.nan) ∧
    (s.totalExpenses = 0 → s.net ≠ 0 → dashboardNetPercent s = JsNum.posInf) ∧
    (s.totalExpenses ≠ 0 →
      dashboardNetPercent s = JsNum.num (|s.net| / s.totalExpenses * 100)) := by
  refine ⟨?_, ?_, ?_⟩
  · intro h0 hn
    simp [dashboardNetPercent, jsDiv, jsMulC, h0, hn]
  · intro h0 hn
    have hpos : 0 < |s.net| := abs_pos.mpr hn
    simp only [dashboardNetPercent, jsDiv, jsMulC, h0, if_pos rfl, if_pos hpos]
    norm_num
  · intro h0
    simp [dashboardNetPercent, jsDiv, jsMulC, h0]

/-- C9 witness: a summary with zero total expenses and positive net
yields `+Infinity`. -/
theorem netPercent_zero_total_behavior_witness :
    dashboardNetPercent
        { totalExpenses := 0, totalIncome := 5, net := 5, categoryBreakdown := [] } =
      JsNum.posInf :=
  (netPercent_zero_total_behavior
    { totalExpenses := 0, totalIncome := 5, net := 5, categoryBreakdown := [] }).2.1
    rfl (by norm_num)

/-- C10. With the default `3months` date range, every row shown by
`filteredExpenses` is dated on or after `subMonths(mostRecent, 3)` where
`mostRecent` is the latest transaction date of the dataset; the cutoff is
independent of the current date whenever the dataset is non-empty
(i.e. it is measured from the data, not from today); and selecting `all`
removes the cutoff entirely, leaving only the kind/category/search
filters and the sort. -/
theorem default_range_cutoff (isInc : Bool) (fc st : String) (so : SortOrder)
    (today : CalDate) (rows : List Row) :
    (∀ r ∈ filteredExpenses isInc DateRange.threeMonths fc st so today rows,
        encDate (subMonths (mostRecentDate today rows) 3) ≤ encDate r.date) ∧
    filteredExpenses isInc DateRange.allTime fc st so today rows =
      sortByCmp (cmpRows so) (searchFiltered st (categoryFiltered fc (kindFiltered isInc rows))) ∧
    (rows ≠ [] → ∀ today2 : CalDate,
        filteredExpenses isInc DateRange.threeMonths fc st so today rows =
          filteredExpenses isInc DateRange.threeMonths fc st so today2 rows) := by
  refine ⟨?_, rfl, ?_⟩
  · intro r hr
    have h1 : r ∈ preSortFiltered isInc DateRange.threeMonths fc st today rows :=
      (mem_sortByCmp (cmpRows so) r _).1 hr
    have h2 := mem_of_mem_searchFiltered st _ r h1
    have h3 := mem_of_mem_categoryFiltered fc _ r h2
    exact mem_dateFiltered_threeMonths today rows _ r h3
  · intro hne today2
    cases rows with
    | nil => exact absurd rfl hne
    | cons a as => rfl

/-- C10 witness: on a concrete one-row dataset the default-range view is
the same for two different current dates. -/
theorem default_range_cutoff_witness :
    filteredExpenses false DateRange.threeMonths ("") ("") SortOrder.dateDesc
        { year := 2025, month := 1, day := 1 } [skiRow] =
      filteredExpenses false DateRange.threeMonths ("") ("") SortOrder.dateDesc
        { year := 2020, month := 6, day := 15 } [skiRow] :=
  (default_range_cutoff false ("") ("") SortOrder.dateDesc
    { year := 2025, month := 1, day := 1 } [skiRow]).2.2 (by decide)
    { year := 2020, month := 6, day := 15 }
